import Mathlib

/-!
Verification of the cache-worker request layer (`src/lib/WikiRequest.ts`).

The TypeScript source is embedded shallowly:
- JS strings are Lean `String`s; the JS string operations used by the source
  (`split`, `startsWith`, `slice`, `trim`) are modelled at the character-list
  level (`String.data`).
- The request URL is modelled as its pathname plus the decoded list of
  query parameters, in order; `URLSearchParams.get` returns the first value
  for a key and `URLSearchParams.has` tests presence.
- The parsed cookie header (a JS record) is modelled as an association list;
  lookup returns the first binding.
- `fetch`'s observable inputs to the transport (the outbound URL, the
  `cf.cacheTtlByStatus` table and `cf.cacheEverything`) are computed by a
  pure function `fetchOutbound`; the in-place mutation of `this.url` is
  modelled by evaluating the eligibility getter on the rewritten URL,
  exactly as the getter would after the mutation.
- Assigning `this.url.pathname` goes through the WHATWG `URL` pathname
  setter, which percent-encodes the assigned string (space, `#`,
  non-ASCII, ... become `%XX`) while `targetArticle` later reads the
  pathname back raw — the source's own comment at WikiRequest.ts:63-67
  notes the resulting inconsistency between the two entry points.  The
  setter is modelled by `encodePath` (see its scope note).
-/

namespace CacheWorker

/-- JS `s.split(sep)` for a one-character separator: splits on every
occurrence of the separator; `"".split(sep)` is `[""]`. -/
def jsSplit (sep : Char) (s : String) : List String :=
  (s.data.splitOn sep).map String.mk

/-- JS `s.startsWith(pre)`. -/
def jsStartsWith (s pre : String) : Bool :=
  pre.data.isPrefixOf s.data

/-- JS `s.slice(n)` for `0 ≤ n`. -/
def jsSlice (s : String) (n : Nat) : String :=
  ⟨s.data.drop n⟩

/-- JS `s.trim()` (whitespace as recognised by `Char.isWhitespace`). -/
def jsTrim (s : String) : String :=
  ⟨((s.data.dropWhile Char.isWhitespace).reverse.dropWhile Char.isWhitespace).reverse⟩

/-- The parsed `Cookie` header: cookie name → value bindings. -/
def Cookies := List (String × String)

/-- `this.cookies[name]`: the value bound to `name`, if any. -/
def cookieGet (cookies : Cookies) (n : String) : Option String :=
  (List.find? (fun kv => kv.1 == n) cookies).map (fun kv => kv.2)

/-- JS truthiness of `this.cookies[name]`: bound and non-empty. -/
def cookieTruthy (cookies : Cookies) (n : String) : Bool :=
  match cookieGet cookies n with
  | some v => !(v == "")
  | none => false

/-- The request URL: pathname plus the ordered, decoded query parameters. -/
structure Url where
  pathname : String
  searchParams : List (String × String)
deriving DecidableEq

/-- `url.searchParams.get(k)`: first value for key `k`, if any. -/
def getParam (u : Url) (k : String) : Option String :=
  (List.find? (fun kv => kv.1 == k) u.searchParams).map (fun kv => kv.2)

/-- `url.searchParams.has(k)`. -/
def hasParam (u : Url) (k : String) : Bool :=
  (getParam u k).isSome

/-- `DISQUALIFYING_QUERY_KEYS` from `WikiRequest.ts`. -/
def DISQUALIFYING_QUERY_KEYS : List String :=
  ["action", "veaction", "diff", "curid", "oldid", "debug", "redirect"]

/-- `interface Article` from `WikiRequest.ts`. -/
structure Article where
  ns : String
  title : String
deriving DecidableEq

/-- `ClientPref` (`src/types`). -/
structure ClientPref where
  className : String
  classPrefix : String
deriving DecidableEq

/-- The worker environment bindings read by `WikiRequest`. -/
structure Env where
  PRIVATE_COOKIE_NAMES : List String
  CACHED_NAMESPACES : List String
  CLIENT_PREFS_COOKIE_NAME : String
  CLIENT_PREFS_CLASS_PREFIXES : List String
  PAGE_TTL : Int
  MISSING_PAGE_TTL : Int

/-- `WikiRequest.extractArticle`.  `none` models the `null` argument
(absent `title` query parameter); the `title === ''` case is JS-falsy and
also yields `Main_Page`.  JS array destructuring of `title.split(':')`
binds the first segment to `ns` and the second (or `undefined`) to
`articleTitle`; further segments are dropped. -/
def extractArticle (title : Option String) : Option Article :=
  match title with
  | none => some ⟨"", "Main_Page"⟩
  | some t =>
    if t = "" then some ⟨"", "Main_Page"⟩
    else
      match jsSplit ':' t with
      | [ns] => some ⟨"", ns⟩
      | ns :: articleTitle :: _ =>
        if articleTitle = "" then none else some ⟨ns, articleTitle⟩
      | [] => none

/-- `WikiRequest.targetArticle` (getter). -/
def targetArticle (u : Url) : Option Article :=
  if u.pathname = "/index.php" then
    extractArticle (getParam u "title")
  else if u.pathname = "/" then
    some ⟨"", "Main_Page"⟩
  else if jsStartsWith u.pathname "/w/" then
    extractArticle (some (jsSlice u.pathname 3))
  else
    none

/-- The first check of `isEligibleForCache`: some name in
`PRIVATE_COOKIE_NAMES` has a truthy cookie value. -/
def hasPrivateCookie (env : Env) (cookies : Cookies) : Bool :=
  env.PRIVATE_COOKIE_NAMES.any (fun n => cookieTruthy cookies n)

/-- `DISQUALIFYING_QUERY_KEYS.some(key => this.url.searchParams.has(key))`. -/
def hasDisqualifyingKey (u : Url) : Bool :=
  DISQUALIFYING_QUERY_KEYS.any (fun k => hasParam u k)

/-- `WikiRequest.isEligibleForCache` (getter). -/
def isEligibleForCache (env : Env) (cookies : Cookies) (u : Url) : Bool :=
  if hasPrivateCookie env cookies then false
  else
    match targetArticle u with
    | none => false
    | some article =>
      if hasDisqualifyingKey u then false
      else env.CACHED_NAMESPACES.contains article.ns

/-- The trimmed candidate class names from a cookie value:
`clientPrefsCookie.split(',').map(className => className.trim())`. -/
def prefTokens (v : String) : List String :=
  (jsSplit ',' v).map jsTrim

/-- The nested loop of `getClientPrefs`: for each configured class marker,
in order, take the first candidate that starts with it (the `break`). -/
def collectPrefs (markers tokens : List String) : List ClientPref :=
  markers.foldl
    (fun acc p =>
      match List.find? (fun c => jsStartsWith c p) tokens with
      | some c => acc ++ [⟨c, p⟩]
      | none => acc)
    []

/-- `WikiRequest.getClientPrefs`.  An absent or empty (JS-falsy) cookie
returns the empty list at once. -/
def getClientPrefs (env : Env) (cookies : Cookies) : List ClientPref :=
  match cookieGet cookies env.CLIENT_PREFS_COOKIE_NAME with
  | none => []
  | some v =>
    if v = "" then []
    else collectPrefs env.CLIENT_PREFS_CLASS_PREFIXES (prefTokens v)

/-- The canonical short-form path built in `fetch`:
``/w/${ns ? `${ns}:` : ""}${title}``. -/
def canonicalPath (a : Article) : String :=
  "/w/" ++ (if a.ns = "" then "" else a.ns ++ ":") ++ a.title

/-- The WHATWG path percent-encode set, which the `URL.pathname` setter
escapes: C0 controls, U+007F and above, and space, `"`, `#`, `<`, `>`,
`?`, backtick, and the two curly brackets (0x7B, 0x7D). -/
def pathPercentEncodeSet (c : Char) : Bool :=
  c.toNat ≤ 0x1F || c.toNat ≥ 0x7F ||
    [0x20, 0x22, 0x23, 0x3C, 0x3E, 0x3F, 0x60, 0x7B, 0x7D].contains c.toNat

/-- Uppercase hexadecimal digit, as percent-encoding produces. -/
def hexDigit (n : Nat) : Char :=
  if n < 10 then Char.ofNat (0x30 + n) else Char.ofNat (0x41 + (n - 10))

/-- One byte as a `%XX` escape. -/
def percentEncodeByte (b : Nat) : List Char :=
  ['%', hexDigit (b / 16), hexDigit (b % 16)]

/-- The UTF-8 bytes of a code point (percent-encoding is UTF-8 based). -/
def utf8Bytes (c : Char) : List Nat :=
  let n := c.toNat
  if n < 0x80 then [n]
  else if n < 0x800 then [0xC0 + n / 0x40, 0x80 + n % 0x40]
  else if n < 0x10000 then
    [0xE0 + n / 0x1000, 0x80 + (n / 0x40) % 0x40, 0x80 + n % 0x40]
  else
    [0xF0 + n / 0x40000, 0x80 + (n / 0x1000) % 0x40, 0x80 + (n / 0x40) % 0x40,
      0x80 + n % 0x40]

/-- How the `URL.pathname` setter maps one character of the assigned
string: characters in the path percent-encode set become `%XX` escapes of
their UTF-8 bytes, everything else is kept verbatim. -/
def encodePathChar (c : Char) : List Char :=
  if pathPercentEncodeSet c then ((utf8Bytes c).map percentEncodeByte).flatten
  else [c]

/-- The percent-encoding the WHATWG `URL.pathname` setter applies to an
assigned path string (`this.url.pathname = ...` at WikiRequest.ts:127).
Scope note: the setter's dot-segment normalization (`.` / `..` segments)
and `\`-to-`/` conversion are not modelled; every theorem below about a
rewritten URL either evaluates a concrete path with no such segments or
assumes `articleCanonSafe`, which rules them out. -/
def encodePath (s : String) : String :=
  ⟨(s.data.map encodePathChar).flatten⟩

/-- A character the pathname setter passes through untouched and that
cannot interfere with path structure: not percent-encoded, and not `/`
(0x2F), `\` (0x5C) or `%` (0x25). -/
def pathPlainChar (c : Char) : Bool :=
  !(pathPercentEncodeSet c) && c.toNat != 0x2F && c.toNat != 0x5C &&
    c.toNat != 0x25

/-- An article whose canonical short-form path survives the `pathname`
setter byte-for-byte: both fields are made of plain path characters and
the title is not a dot segment. -/
def articleCanonSafe (a : Article) : Bool :=
  a.ns.data.all pathPlainChar && a.title.data.all pathPlainChar &&
    !(a.title == ".") && !(a.title == "..")

/-- The resolved article of a URL, if any, is canonicalization-safe. -/
def resolvedCanonSafe (u : Url) : Bool :=
  match targetArticle u with
  | some a => articleCanonSafe a
  | none => true

/-- The URL-rewriting step of `fetch`: when the request is eligible, an
article resolved and the path is `/index.php`, assign the `/w/` short form
to `this.url.pathname` — which percent-encodes it — and clear the query
string; otherwise leave the URL unchanged. -/
def rewriteUrl (env : Env) (cookies : Cookies) (u : Url) : Url :=
  if isEligibleForCache env cookies u then
    match targetArticle u with
    | some a =>
      if u.pathname = "/index.php" then ⟨encodePath (canonicalPath a), []⟩ else u
    | none => u
  else u

/-- The `cf.cacheTtlByStatus` table passed to the transport; `-1` is the
platform encoding of "do not cache". -/
structure TtlByStatus where
  s200 : Int
  s300to399 : Int
  s404 : Int
  s500to599 : Int
deriving DecidableEq

/-- What `WikiRequest.fetch` hands to the transport: the (possibly
rewritten) URL and the cache directive. -/
structure OutboundRequest where
  url : Url
  cacheTtlByStatus : Option TtlByStatus
  cacheEverything : Bool
deriving DecidableEq

/-- `WikiRequest.fetch`, up to the transport call: the rewrite mutates
`this.url`, so the two later reads of `this.isEligibleForCache` evaluate
the getter on the rewritten URL. -/
def fetchOutbound (env : Env) (cookies : Cookies) (u : Url) : OutboundRequest :=
  let u2 := rewriteUrl env cookies u
  { url := u2
    cacheTtlByStatus :=
      if isEligibleForCache env cookies u2 then
        some ⟨env.PAGE_TTL, -1, env.MISSING_PAGE_TTL, -1⟩
      else none
    cacheEverything := isEligibleForCache env cookies u2 }

/-- The candidate class names `getClientPrefs` scans, factored out of the
early returns: empty when the preference cookie is absent or JS-falsy. -/
def prefTokensOf (env : Env) (cookies : Cookies) : List String :=
  match cookieGet cookies env.CLIENT_PREFS_COOKIE_NAME with
  | none => []
  | some v => if v = "" then [] else prefTokens v

/-- Every article the resolver can produce has a non-empty title and no
`':'` inside either field. -/
def ArticleWF (a : Article) : Prop :=
  a.title ≠ "" ∧ ':' ∉ a.ns.data ∧ ':' ∉ a.title.data

/-! ### Basic string and list facts -/

theorem String.mk_data (l : List Char) : (String.mk l).data = l := rfl

theorem String.ne_empty_iff_data {s : String} : s ≠ "" ↔ s.data ≠ [] := by
  constructor
  · intro h hd
    exact h (String.ext hd)
  · intro h hd
    subst hd
    exact h rfl

theorem List.splitOn_eq_single {α : Type} [DecidableEq α] {sep : α} {l : List α}
    (h : sep ∉ l) : l.splitOn sep = [l] := by
  apply List.splitOnP_eq_single
  intro x hx
  simp only [beq_iff_eq]
  intro he
  exact h (he ▸ hx)

theorem List.splitOn_append_cons {α : Type} [DecidableEq α] {sep : α} {l₁ : List α}
    (h : sep ∉ l₁) (l₂ : List α) :
    (l₁ ++ sep :: l₂).splitOn sep = l₁ :: l₂.splitOn sep := by
  apply List.splitOnP_first
  · intro x hx
    simp only [beq_iff_eq]
    intro he
    exact h (he ▸ hx)
  · simp

theorem List.splitOn_singleton_inv {α : Type} [DecidableEq α] {sep : α} {l m : List α}
    (h : l.splitOn sep = [m]) : m = l := by
  have h2 := List.intercalate_splitOn l sep
  rw [h] at h2
  simpa [List.intercalate] using h2

theorem List.not_mem_of_mem_splitOn {α : Type} [DecidableEq α] {sep : α} {l m : List α}
    (h : m ∈ l.splitOn sep) : sep ∉ m := by
  induction l generalizing m with
  | nil =>
    simp only [List.splitOn_nil, List.mem_singleton] at h
    simp [h]
  | cons x xs ih =>
    simp only [List.splitOn, List.splitOnP_cons] at h ih
    by_cases hx : x = sep
    · simp only [hx, beq_self_eq_true, if_true] at h
      rcases List.mem_cons.mp h with h1 | h1
      · simp [h1]
      · exact ih h1
    · have hbeq : (x == sep) = false := beq_false_of_ne hx
      rw [hbeq] at h
      simp only [Bool.false_eq_true, if_false] at h
      rcases hsp : List.splitOnP (· == sep) xs with _ | ⟨hd, tl⟩
      · exact absurd hsp (List.splitOnP_ne_nil _ _)
      · rw [hsp, List.modifyHead_cons] at h
        rcases List.mem_cons.mp h with h1 | h1
        · subst h1
          intro hm
          rcases List.mem_cons.mp hm with h2 | h2
          · exact hx h2.symm
          · exact ih (hsp ▸ List.mem_cons_self hd tl) h2
        · exact ih (hsp ▸ List.mem_cons_of_mem hd h1)

/-! ### jsSplit facts -/

theorem jsSplit_no_sep {sep : Char} {s : String} (h : sep ∉ s.data) :
    jsSplit sep s = [s] := by
  unfold jsSplit
  rw [List.splitOn_eq_single h]
  simp [List.map_singleton]

theorem jsSplit_first (sep : Char) (a b : String) (ha : sep ∉ a.data) :
    jsSplit sep ⟨a.data ++ sep :: b.data⟩ = a :: jsSplit sep b := by
  unfold jsSplit
  rw [String.mk_data, List.splitOn_append_cons ha]
  simp only [List.map_cons]

theorem jsSplit_data (sep : Char) (s : String) :
    (jsSplit sep s).map String.data = s.data.splitOn sep := by
  unfold jsSplit
  rw [List.map_map]
  simp [Function.comp_def]

/-! ### Articles produced by the resolver are well-formed -/

/-- The defining equation of `extractArticle` on a present title, stated
once so that later proofs can rewrite with it. -/
theorem extractArticle_some_eq (t : String) :
    extractArticle (some t) =
      if t = "" then some ⟨"", "Main_Page"⟩
      else
        match jsSplit ':' t with
        | [ns] => some ⟨"", ns⟩
        | ns :: articleTitle :: _ =>
          if articleTitle = "" then none else some ⟨ns, articleTitle⟩
        | [] => none := rfl

theorem jsSplit_ne_nil (sep : Char) (s : String) : jsSplit sep s ≠ [] := by
  intro h
  have h2 : (jsSplit sep s).map String.data = [] := by rw [h]; rfl
  rw [jsSplit_data] at h2
  exact List.splitOnP_ne_nil _ _ h2

theorem extractArticle_of_split_single {s n : String}
    (hs : s ≠ "") (hsp : jsSplit ':' s = [n]) :
    extractArticle (some s) = some ⟨"", n⟩ := by
  rw [extractArticle_some_eq, if_neg hs, hsp]

theorem extractArticle_of_split_pair {s n t : String} {rest : List String}
    (hs : s ≠ "") (hsp : jsSplit ':' s = n :: t :: rest) :
    extractArticle (some s) = if t = "" then none else some ⟨n, t⟩ := by
  rw [extractArticle_some_eq, if_neg hs, hsp]

/-- `extractArticle` on a title with no colon: the main namespace. -/
theorem extractArticle_single {t : String} (ht : t ≠ "") (hc : ':' ∉ t.data) :
    extractArticle (some t) = some ⟨"", t⟩ :=
  extractArticle_of_split_single ht (jsSplit_no_sep hc)

theorem extractArticle_wf {t : Option String} {a : Article}
    (h : extractArticle t = some a) : ArticleWF a := by
  cases t with
  | none =>
    simp only [extractArticle, Option.some.injEq] at h
    subst h
    exact ⟨by decide, by decide, by decide⟩
  | some s =>
    by_cases hs : s = ""
    · rw [extractArticle_some_eq, if_pos hs, Option.some.injEq] at h
      subst h
      exact ⟨by decide, by decide, by decide⟩
    · rcases hsp : jsSplit ':' s with _ | ⟨n, l⟩
      · exact absurd hsp (jsSplit_ne_nil ':' s)
      · have hdata : s.data.splitOn ':' = (n :: l).map String.data := by
          rw [← jsSplit_data ':' s, hsp]
        rcases l with _ | ⟨t2, l2⟩
        · rw [extractArticle_of_split_single hs hsp, Option.some.injEq] at h
          subst h
          have hmem : n.data ∈ s.data.splitOn ':' := by
            rw [hdata]; simp
          have hninv : n.data = s.data :=
            List.splitOn_singleton_inv (by rw [hdata]; rfl)
          refine ⟨?_, by simp, List.not_mem_of_mem_splitOn hmem⟩
          show n ≠ ""
          rw [String.ne_empty_iff_data, hninv]
          exact String.ne_empty_iff_data.mp hs
        · rw [extractArticle_of_split_pair hs hsp] at h
          by_cases ht2 : t2 = ""
          · rw [if_pos ht2] at h
            exact absurd h (by simp)
          · rw [if_neg ht2, Option.some.injEq] at h
            subst h
            have hmn : n.data ∈ s.data.splitOn ':' := by
              rw [hdata]; simp
            have hmt : t2.data ∈ s.data.splitOn ':' := by
              rw [hdata]; simp
            exact ⟨ht2, List.not_mem_of_mem_splitOn hmn,
              List.not_mem_of_mem_splitOn hmt⟩

theorem targetArticle_wf {u : Url} {a : Article}
    (h : targetArticle u = some a) : ArticleWF a := by
  unfold targetArticle at h
  split at h
  · exact extractArticle_wf h
  · split at h
    · simp only [Option.some.injEq] at h
      subst h
      exact ⟨by decide, by decide, by decide⟩
    · split at h
      · exact extractArticle_wf h
      · exact absurd h (by simp)

/-! ### Round trip: the canonical short-form path resolves to the article -/

theorem canonicalPath_data (a : Article) :
    (canonicalPath a).data
      = '/' :: 'w' :: '/' ::
        (((if a.ns = "" then "" else a.ns ++ ":") : String).data ++ a.title.data) := by
  simp [canonicalPath, String.data_append]

theorem targetArticle_canonicalPath {a : Article} (hwf : ArticleWF a) :
    targetArticle ⟨canonicalPath a, []⟩ = some a := by
  obtain ⟨ht, hn, htc⟩ := hwf
  have hdata := canonicalPath_data a
  have h1 : canonicalPath a ≠ "/index.php" := by
    intro he
    have := congrArg String.data he
    rw [hdata] at this
    simp at this
  have h2 : canonicalPath a ≠ "/" := by
    intro he
    have := congrArg String.data he
    rw [hdata] at this
    simp at this
  have h3 : jsStartsWith (canonicalPath a) "/w/" = true := by
    unfold jsStartsWith
    rw [hdata]
    simp [List.isPrefixOf]
  have h4 : jsSlice (canonicalPath a) 3
      = ⟨((if a.ns = "" then "" else a.ns ++ ":") : String).data ++ a.title.data⟩ := by
    simp [jsSlice, hdata]
  show targetArticle ⟨canonicalPath a, []⟩ = some a
  unfold targetArticle
  simp only [if_neg h1, if_neg h2, h3, if_pos, if_true]
  rw [h4]
  by_cases hns : a.ns = ""
  · rw [if_pos hns]
    have heq : (⟨("" : String).data ++ a.title.data⟩ : String) = a.title :=
      String.ext (by simp)
    rw [heq, extractArticle_single ht htc, ← hns]
  · rw [if_neg hns]
    have heq : (⟨((a.ns ++ ":" : String)).data ++ a.title.data⟩ : String)
        = ⟨a.ns.data ++ ':' :: a.title.data⟩ :=
      String.ext (by simp [String.data_append])
    rw [heq]
    have hne : (⟨a.ns.data ++ ':' :: a.title.data⟩ : String) ≠ "" := by
      rw [String.ne_empty_iff_data]
      simp
    have hsp : jsSplit ':' (⟨a.ns.data ++ ':' :: a.title.data⟩ : String)
        = a.ns :: a.title :: [] := by
      rw [jsSplit_first ':' a.ns a.title hn, jsSplit_no_sep htc]
    rw [extractArticle_of_split_pair hne hsp, if_neg ht]

/-! ### Characterizing the eligibility verdict -/

theorem cookieTruthy_eq_false_iff {cookies : Cookies} {n : String} :
    cookieTruthy cookies n = false ↔
      ∀ v, cookieGet cookies n = some v → v = "" := by
  rcases h : cookieGet cookies n with _ | v
  · simp [cookieTruthy, h]
  · simp [cookieTruthy, h]

theorem hasPrivateCookie_eq_false_iff {env : Env} {cookies : Cookies} :
    hasPrivateCookie env cookies = false ↔
      ∀ n ∈ env.PRIVATE_COOKIE_NAMES, cookieTruthy cookies n = false := by
  simp [hasPrivateCookie, List.any_eq_false]

theorem hasDisqualifyingKey_eq_false_iff {u : Url} :
    hasDisqualifyingKey u = false ↔
      ∀ k ∈ DISQUALIFYING_QUERY_KEYS, hasParam u k = false := by
  simp [hasDisqualifyingKey, List.any_eq_false]

theorem isEligibleForCache_eq_true_iff {env : Env} {cookies : Cookies} {u : Url} :
    isEligibleForCache env cookies u = true ↔
      hasPrivateCookie env cookies = false ∧
      ∃ a, targetArticle u = some a ∧ hasDisqualifyingKey u = false ∧
        a.ns ∈ env.CACHED_NAMESPACES := by
  unfold isEligibleForCache
  by_cases hp : hasPrivateCookie env cookies
  · simp [hp]
  · simp only [Bool.not_eq_true] at hp
    rw [if_neg (by simp [hp])]
    rcases ha : targetArticle u with _ | a
    · simp [ha]
    · by_cases hd : hasDisqualifyingKey u
      · simp [ha, hd, hp]
      · simp only [Bool.not_eq_true] at hd
        simp [ha, hd, hp]

theorem hasDisqualifyingKey_nil (p : String) :
    hasDisqualifyingKey ⟨p, []⟩ = false := by
  simp [hasDisqualifyingKey, hasParam, getParam, DISQUALIFYING_QUERY_KEYS]

/-! ### When the canonical path survives the pathname setter unchanged -/

theorem pathPlainChar_not_encoded {c : Char} (h : pathPlainChar c = true) :
    pathPercentEncodeSet c = false := by
  unfold pathPlainChar at h
  simp only [Bool.and_eq_true, Bool.not_eq_true'] at h
  exact h.1.1.1

theorem flatten_map_encodePathChar (l : List Char)
    (h : ∀ c ∈ l, pathPercentEncodeSet c = false) :
    (l.map encodePathChar).flatten = l := by
  induction l with
  | nil => rfl
  | cons c cs ih =>
    have hc := h c (List.mem_cons_self c cs)
    simp [encodePathChar, hc, ih (fun x hx => h x (List.mem_cons_of_mem c hx))]

theorem encodePath_of_plain {s : String}
    (h : ∀ c ∈ s.data, pathPercentEncodeSet c = false) : encodePath s = s := by
  apply String.ext
  exact flatten_map_encodePathChar s.data h

theorem canonicalPath_plain {a : Article}
    (h1 : a.ns.data.all pathPlainChar = true)
    (h2 : a.title.data.all pathPlainChar = true) :
    ∀ c ∈ (canonicalPath a).data, pathPercentEncodeSet c = false := by
  intro c hc
  rw [canonicalPath_data] at hc
  simp only [List.mem_cons, List.mem_append] at hc
  rcases hc with rfl | rfl | rfl | hc | hc
  · decide
  · decide
  · decide
  · by_cases hns : a.ns = ""
    · rw [if_pos hns] at hc
      exact absurd hc (by simp)
    · rw [if_neg hns, String.data_append] at hc
      rcases List.mem_append.mp hc with hc | hc
      · exact pathPlainChar_not_encoded (List.all_eq_true.mp h1 c hc)
      · have hcc : c = ':' := by
          simpa using hc
        rw [hcc]
        decide
  · exact pathPlainChar_not_encoded (List.all_eq_true.mp h2 c hc)

theorem encodePath_canonicalPath {a : Article}
    (h : articleCanonSafe a = true) :
    encodePath (canonicalPath a) = canonicalPath a := by
  unfold articleCanonSafe at h
  simp only [Bool.and_eq_true] at h
  exact encodePath_of_plain (canonicalPath_plain h.1.1.1 h.1.1.2)

/-! ### Eligibility under the canonicalization rewrite -/

theorem isEligible_rewriteUrl_safe (env : Env) (cookies : Cookies) (u : Url)
    (h : resolvedCanonSafe u = true) :
    isEligibleForCache env cookies (rewriteUrl env cookies u)
      = isEligibleForCache env cookies u := by
  by_cases he : isEligibleForCache env cookies u = true
  · rcases isEligibleForCache_eq_true_iff.mp he with ⟨hpriv, a, ha, hdq, hns⟩
    have hsafe : articleCanonSafe a = true := by
      unfold resolvedCanonSafe at h
      rw [ha] at h
      exact h
    unfold rewriteUrl
    rw [if_pos he]
    simp only [ha]
    by_cases hpath : u.pathname = "/index.php"
    · rw [if_pos hpath, he, encodePath_canonicalPath hsafe,
        isEligibleForCache_eq_true_iff]
      exact ⟨hpriv, a, targetArticle_canonicalPath (targetArticle_wf ha),
        hasDisqualifyingKey_nil _, hns⟩
    · rw [if_neg hpath]
  · simp only [Bool.not_eq_true] at he
    unfold rewriteUrl
    rw [if_neg (by simp [he])]

theorem fetchOutbound_url (env : Env) (cookies : Cookies) (u : Url) :
    (fetchOutbound env cookies u).url = rewriteUrl env cookies u := rfl

/-! ### The client-preference extraction as a filterMap -/

theorem collectPrefs_aux (tokens : List String) (markers : List String)
    (acc : List ClientPref) :
    markers.foldl
        (fun acc p =>
          match List.find? (fun c => jsStartsWith c p) tokens with
          | some c => acc ++ [⟨c, p⟩]
          | none => acc) acc
      = acc ++ markers.filterMap
          (fun p => (List.find? (fun c => jsStartsWith c p) tokens).map
            (fun c => ⟨c, p⟩)) := by
  induction markers generalizing acc with
  | nil => simp
  | cons p ps ih =>
    rcases hf : List.find? (fun c => jsStartsWith c p) tokens with _ | c
    · simp [hf, ih]
    · simp [hf, ih]

theorem collectPrefs_eq_filterMap (markers tokens : List String) :
    collectPrefs markers tokens
      = markers.filterMap
          (fun p => (List.find? (fun c => jsStartsWith c p) tokens).map
            (fun c => ⟨c, p⟩)) := by
  unfold collectPrefs
  rw [collectPrefs_aux]
  simp

theorem getClientPrefs_eq_collect (env : Env) (cookies : Cookies) :
    getClientPrefs env cookies
      = collectPrefs env.CLIENT_PREFS_CLASS_PREFIXES (prefTokensOf env cookies) := by
  have hnil : collectPrefs env.CLIENT_PREFS_CLASS_PREFIXES [] = [] := by
    simp [collectPrefs_eq_filterMap]
  unfold getClientPrefs prefTokensOf
  rcases h : cookieGet cookies env.CLIENT_PREFS_COOKIE_NAME with _ | v
  · simp only [h]
    exact hnil.symm
  · simp only [h]
    by_cases hv : v = ""
    · rw [if_pos hv, if_pos hv]
      exact hnil.symm
    · rw [if_neg hv, if_neg hv]

theorem count_filterMap_le {α β : Type} [DecidableEq α] [DecidableEq β]
    (g : α → Option β) (l : List α) (b : β) :
    (l.filterMap g).count b ≤ l.countP (fun a => g a == some b) := by
  induction l with
  | nil => simp
  | cons x xs ih =>
    rcases hg : g x with _ | y
    · simp only [List.filterMap_cons, hg, List.countP_cons, beq_iff_eq]
      simp only [reduceCtorEq, if_false]
      omega
    · simp only [List.filterMap_cons, hg, List.countP_cons, List.count_cons,
        beq_iff_eq, Option.some.injEq]
      by_cases hyb : y = b
      · simp only [hyb, if_pos rfl, beq_self_eq_true, if_true]
        omega
      · omega

theorem collectPrefs_nodup (markers tokens : List String)
    (h : ∀ c ∈ tokens, markers.countP (fun p => jsStartsWith c p) ≤ 1) :
    ((collectPrefs markers tokens).map (fun e => e.className)).Nodup := by
  rw [collectPrefs_eq_filterMap, List.map_filterMap]
  have hg : ∀ p : String,
      ((List.find? (fun c => jsStartsWith c p) tokens).map
          (fun c => (⟨c, p⟩ : ClientPref))).map (fun e => e.className)
        = List.find? (fun c => jsStartsWith c p) tokens := by
    intro p
    rcases List.find? (fun c => jsStartsWith c p) tokens with _ | c
    · rfl
    · rfl
  simp only [hg]
  rw [List.nodup_iff_count_le_one]
  intro c
  by_cases hc : c ∈ tokens
  · calc (markers.filterMap
          (fun p => List.find? (fun c => jsStartsWith c p) tokens)).count c
        ≤ markers.countP
          (fun p => List.find? (fun c => jsStartsWith c p) tokens == some c) :=
          count_filterMap_le _ _ _
      _ ≤ markers.countP (fun p => jsStartsWith c p) := by
          apply List.countP_mono_left
          intro p _ hp
          rw [beq_iff_eq] at hp
          have h2 := List.find?_some hp
          simpa using h2
      _ ≤ 1 := h c hc
  · have : c ∉ markers.filterMap
        (fun p => List.find? (fun c => jsStartsWith c p) tokens) := by
      intro hmem
      rcases List.mem_filterMap.mp hmem with ⟨p, _, hfind⟩
      exact hc (List.mem_of_find?_eq_some hfind)
    rw [List.count_eq_zero.mpr this]
    omega

/-! ### The claims -/

/-- Claim C1: `isEligibleForCache` returns `true` exactly when all four
conjuncts hold: no name in `PRIVATE_COOKIE_NAMES` has a truthy (non-empty)
cookie value, the target article resolves, none of the disqualifying query
keys is present, and the resolved article's namespace is a member of
`CACHED_NAMESPACES`. -/
theorem c1_isEligibleForCache_iff (env : Env) (cookies : Cookies) (u : Url) :
    isEligibleForCache env cookies u = true ↔
      ((∀ n ∈ env.PRIVATE_COOKIE_NAMES, ∀ v, cookieGet cookies n = some v → v = "") ∧
       targetArticle u ≠ none ∧
       (∀ k ∈ DISQUALIFYING_QUERY_KEYS, hasParam u k = false) ∧
       (∀ a, targetArticle u = some a → a.ns ∈ env.CACHED_NAMESPACES)) := by
  rw [isEligibleForCache_eq_true_iff]
  constructor
  · rintro ⟨hp, a, ha, hd, hns⟩
    refine ⟨?_, by rw [ha]; simp, hasDisqualifyingKey_eq_false_iff.mp hd, ?_⟩
    · intro n hn v hv
      have h2 := (hasPrivateCookie_eq_false_iff.mp hp) n hn
      rw [cookieTruthy_eq_false_iff] at h2
      exact h2 v hv
    · intro a2 ha2
      rw [ha] at ha2
      injection ha2 with h2
      rw [← h2]
      exact hns
  · rintro ⟨hp, hsome, hd, hns⟩
    rcases ho : targetArticle u with _ | a
    · exact absurd ho hsome
    · refine ⟨?_, a, rfl, hasDisqualifyingKey_eq_false_iff.mpr hd, hns a ho⟩
      rw [hasPrivateCookie_eq_false_iff]
      intro n hn
      rw [cookieTruthy_eq_false_iff]
      exact hp n hn

/-- Claim C2: when the request is not eligible for cache — or does not use
the `/index.php` query-driven entry point, or has no resolvable article —
the outbound request's URL (path and query) is identical to the inbound
one; the canonicalization rewrite happens only when all three hold. -/
theorem c2_no_rewrite_unless_canonicalizable (env : Env) (cookies : Cookies)
    (u : Url)
    (h : isEligibleForCache env cookies u = false ∨ u.pathname ≠ "/index.php" ∨
      targetArticle u = none) :
    (fetchOutbound env cookies u).url = u := by
  rw [fetchOutbound_url]
  unfold rewriteUrl
  by_cases he : isEligibleForCache env cookies u = true
  · rw [if_pos he]
    rcases ha : targetArticle u with _ | a
    · simp only [ha]
    · simp only [ha]
      rcases h with h | h | h
      · rw [he] at h
        exact absurd h (by simp)
      · rw [if_neg h]
      · rw [ha] at h
        exact absurd h (by simp)
  · rw [if_neg he]

theorem c2_no_rewrite_unless_canonicalizable_witness :
    isEligibleForCache ⟨[], ["Foo"], "prefs", [], 3600, 300⟩ []
        ⟨"/index.php", [("title", "Foo:Bar"), ("action", "edit")]⟩ = false ∧
      (fetchOutbound ⟨[], ["Foo"], "prefs", [], 3600, 300⟩ []
          ⟨"/index.php", [("title", "Foo:Bar"), ("action", "edit")]⟩).url
        = ⟨"/index.php", [("title", "Foo:Bar"), ("action", "edit")]⟩ :=
  ⟨by decide,
    c2_no_rewrite_unless_canonicalizable _ _ _ (Or.inl (by decide))⟩

/-- Claim C3 fails as stated: the pathname setter percent-encodes the
canonical path while the resolver reads it back raw, so re-evaluating
eligibility after the rewrite can flip the verdict.  With
`CACHED_NAMESPACES = ["My NS"]`, `/index.php?title=My NS:X` is eligible
inbound, but the rewritten `/w/My%20NS:X` resolves to namespace
`"My%20NS"`, which is not cached. -/
theorem c3_counterexample :
    isEligibleForCache ⟨[], ["My NS"], "prefs", [], 3600, 300⟩ []
        ⟨"/index.php", [("title", "My NS:X")]⟩ = true ∧
      (rewriteUrl ⟨[], ["My NS"], "prefs", [], 3600, 300⟩ []
          ⟨"/index.php", [("title", "My NS:X")]⟩).pathname = "/w/My%20NS:X" ∧
      isEligibleForCache ⟨[], ["My NS"], "prefs", [], 3600, 300⟩ []
        (rewriteUrl ⟨[], ["My NS"], "prefs", [], 3600, 300⟩ []
          ⟨"/index.php", [("title", "My NS:X")]⟩) = false :=
  ⟨by decide, by decide, by decide⟩

/-- Claim C3 (amended): re-evaluating cache eligibility after the
canonicalization rewrite yields the same verdict as on the inbound
request provided the resolved article (if any) is canonicalization-safe:
its namespace and title contain no characters the pathname setter
percent-encodes and no path-structure characters (`/`, `\`, `%`), and the
title is not a dot segment.  With percent-encodable characters the
verdict can change, as the counterexample shows. -/
theorem c3_amended_eligibility_stable (env : Env) (cookies : Cookies) (u : Url)
    (h : resolvedCanonSafe u = true) :
    isEligibleForCache env cookies (rewriteUrl env cookies u)
      = isEligibleForCache env cookies u :=
  isEligible_rewriteUrl_safe env cookies u h

theorem c3_amended_eligibility_stable_witness :
    resolvedCanonSafe ⟨"/index.php", [("title", "Foo:Bar")]⟩ = true ∧
      isEligibleForCache ⟨[], ["Foo"], "prefs", [], 3600, 300⟩ []
          (rewriteUrl ⟨[], ["Foo"], "prefs", [], 3600, 300⟩ []
            ⟨"/index.php", [("title", "Foo:Bar")]⟩)
        = isEligibleForCache ⟨[], ["Foo"], "prefs", [], 3600, 300⟩ []
          ⟨"/index.php", [("title", "Foo:Bar")]⟩ :=
  ⟨by decide, c3_amended_eligibility_stable _ _ _ (by decide)⟩

/-- Claim C4 fails as stated: JS array destructuring of `title.split(':')`
keeps only the first two segments, so `"A:B:C"` resolves to namespace
`"A"` and title `"B"`, not title `"B:C"`. -/
theorem c4_counterexample :
    extractArticle (some "A:B:C") = some ⟨"A", "B"⟩ ∧
      extractArticle (some "A:B:C") ≠ some ⟨"A", "B:C"⟩ :=
  ⟨by decide, by decide⟩

/-- Claim C4 (amended): the resolver splits on `':'` and keeps the first
two segments: for `a ++ ":" ++ b` with no colon in `a` or `b` and `b`
non-empty the result is namespace `a`, title `b`; with further separators
(`a ++ ":" ++ b ++ ":" ++ c`) the title is still `b`, the text between the
first and second separators, and the rest is dropped. -/
theorem c4_amended_split_keeps_first_two (a b c : String)
    (ha : ':' ∉ a.data) (hb : ':' ∉ b.data) (hbne : b ≠ "") :
    extractArticle (some (a ++ ":" ++ b)) = some ⟨a, b⟩ ∧
      extractArticle (some (a ++ ":" ++ b ++ ":" ++ c)) = some ⟨a, b⟩ := by
  constructor
  · have hd : (a ++ ":" ++ b) = (⟨a.data ++ ':' :: b.data⟩ : String) :=
      String.ext (by simp [String.data_append])
    rw [hd]
    have hne : (⟨a.data ++ ':' :: b.data⟩ : String) ≠ "" := by
      rw [String.ne_empty_iff_data]
      simp
    rw [extractArticle_of_split_pair hne
      (by rw [jsSplit_first ':' a b ha, jsSplit_no_sep hb]), if_neg hbne]
  · have hd : (a ++ ":" ++ b ++ ":" ++ c)
        = (⟨a.data ++ ':' :: (⟨b.data ++ ':' :: c.data⟩ : String).data⟩ : String) :=
      String.ext (by simp [String.data_append])
    rw [hd]
    have hne : (⟨a.data ++ ':' :: (⟨b.data ++ ':' :: c.data⟩ : String).data⟩ : String)
        ≠ "" := by
      rw [String.ne_empty_iff_data]
      simp
    rw [extractArticle_of_split_pair hne
      (by rw [jsSplit_first ':' a (⟨b.data ++ ':' :: c.data⟩ : String) ha,
        jsSplit_first ':' b c hb]), if_neg hbne]

theorem c4_amended_witness :
    extractArticle (some ("A" ++ ":" ++ "B")) = some ⟨"A", "B"⟩ ∧
      extractArticle (some ("A" ++ ":" ++ "B" ++ ":" ++ "C")) = some ⟨"A", "B"⟩ :=
  ⟨(c4_amended_split_keeps_first_two "A" "B" "C" (by decide) (by decide)
      (by decide)).1,
    (c4_amended_split_keeps_first_two "A" "B" "C" (by decide) (by decide)
      (by decide)).2⟩

/-- Claim C5 fails as stated: the eligible request
`/index.php?title=Main Page` (main namespace cached) canonicalizes to
`/w/Main%20Page` — the pathname setter percent-encodes the space — and
that path resolves to title `"Main%20Page"`, not `"Main Page"`, so
resolve(canonicalize(url)) ≠ resolve(url). -/
theorem c5_counterexample :
    isEligibleForCache ⟨[], [""], "prefs", [], 3600, 300⟩ []
        ⟨"/index.php", [("title", "Main Page")]⟩ = true ∧
      targetArticle ⟨"/index.php", [("title", "Main Page")]⟩
        = some ⟨"", "Main Page"⟩ ∧
      targetArticle (fetchOutbound ⟨[], [""], "prefs", [], 3600, 300⟩ []
          ⟨"/index.php", [("title", "Main Page")]⟩).url
        = some ⟨"", "Main%20Page"⟩ ∧
      targetArticle (fetchOutbound ⟨[], [""], "prefs", [], 3600, 300⟩ []
          ⟨"/index.php", [("title", "Main Page")]⟩).url
        ≠ targetArticle ⟨"/index.php", [("title", "Main Page")]⟩ :=
  ⟨by decide, by decide, by decide, by decide⟩

/-- Claim C5 (amended): for an eligible request at the query-driven entry
point whose resolved article is canonicalization-safe (no characters the
pathname setter percent-encodes, no path-structure characters, title not
a dot segment), the canonicalized outbound URL resolves to the same
article as the inbound URL: resolve(canonicalize(url)) = resolve(url). -/
theorem c5_amended_roundtrip (env : Env) (cookies : Cookies) (u : Url)
    (h1 : isEligibleForCache env cookies u = true)
    (h2 : u.pathname = "/index.php")
    (h3 : resolvedCanonSafe u = true) :
    targetArticle (fetchOutbound env cookies u).url = targetArticle u := by
  rw [fetchOutbound_url]
  rcases isEligibleForCache_eq_true_iff.mp h1 with ⟨_, a, ha, _, _⟩
  have hsafe : articleCanonSafe a = true := by
    unfold resolvedCanonSafe at h3
    rw [ha] at h3
    exact h3
  unfold rewriteUrl
  rw [if_pos h1]
  simp only [ha]
  rw [if_pos h2, encodePath_canonicalPath hsafe,
    targetArticle_canonicalPath (targetArticle_wf ha)]

theorem c5_amended_roundtrip_witness :
    targetArticle (fetchOutbound ⟨[], ["Foo"], "prefs", [], 3600, 300⟩ []
        ⟨"/index.php", [("title", "Foo:Bar")]⟩).url
      = targetArticle ⟨"/index.php", [("title", "Foo:Bar")]⟩ :=
  c5_amended_roundtrip _ _ _ (by decide) rfl (by decide)

/-- Claim C6 fails as stated: with configured markers `["a", "ab"]` the
single candidate class name `"abc"` starts with both, and is emitted once
per marker, so the same className appears twice. -/
theorem c6_counterexample :
    getClientPrefs ⟨[], [], "prefs", ["a", "ab"], 3600, 300⟩ [("prefs", "abc")]
        = [⟨"abc", "a"⟩, ⟨"abc", "ab"⟩] ∧
      ¬ ((getClientPrefs ⟨[], [], "prefs", ["a", "ab"], 3600, 300⟩
          [("prefs", "abc")]).map (fun e => e.className)).Nodup :=
  ⟨by decide, by decide⟩

/-- Claim C6 (amended): each configured marker contributes at most one
entry, so each distinct className appears at most once provided no
candidate class name starts with more than one of the configured markers;
in general a className can appear once per configured marker that it
starts with. -/
theorem c6_amended_className_nodup (env : Env) (cookies : Cookies)
    (h : ∀ c ∈ prefTokensOf env cookies,
      env.CLIENT_PREFS_CLASS_PREFIXES.countP (fun p => jsStartsWith c p) ≤ 1) :
    ((getClientPrefs env cookies).map (fun e => e.className)).Nodup := by
  rw [getClientPrefs_eq_collect]
  exact collectPrefs_nodup _ _ h

theorem c6_amended_className_nodup_witness :
    ((getClientPrefs ⟨[], [], "prefs", ["mf-tabs-", "mf-theme-"], 3600, 300⟩
        [("prefs", "mf-tabs-enabled, foo-bar ,mf-theme-dark")]).map
        (fun e => e.className)).Nodup :=
  c6_amended_className_nodup _ _ (by decide)

/-- Claim C7 fails as stated: the `cf` options read `this.isEligibleForCache`
after the URL mutation, so an inbound-eligible request whose canonical
path gets percent-encoded is re-evaluated ineligible and dispatched with
no TTL-by-status table and no cache-everything flag at all. -/
theorem c7_counterexample :
    isEligibleForCache ⟨[], ["My NS"], "prefs", [], 3600, 300⟩ []
        ⟨"/index.php", [("title", "My NS:Y")]⟩ = true ∧
      (fetchOutbound ⟨[], ["My NS"], "prefs", [], 3600, 300⟩ []
          ⟨"/index.php", [("title", "My NS:Y")]⟩).cacheTtlByStatus = none ∧
      (fetchOutbound ⟨[], ["My NS"], "prefs", [], 3600, 300⟩ []
          ⟨"/index.php", [("title", "My NS:Y")]⟩).cacheEverything = false :=
  ⟨by decide, by decide, by decide⟩

/-- Claim C7 (amended): an inbound-ineligible request always gets no
TTL-by-status directive and no cache-everything flag; and whenever the
resolved article (if any) is canonicalization-safe — in particular for
every request the rewrite leaves unencoded — the directive is exactly as
claimed: eligible requests get `{200 ↦ PAGE_TTL, 300-399 ↦ -1,
404 ↦ MISSING_PAGE_TTL, 500-599 ↦ -1}` (`-1` is the platform encoding of
"do not cache") with `cacheEverything` set, ineligible requests get
nothing. -/
theorem c7_amended_cache_directive (env : Env) (cookies : Cookies) (u : Url) :
    (isEligibleForCache env cookies u = false →
      (fetchOutbound env cookies u).cacheTtlByStatus = none ∧
      (fetchOutbound env cookies u).cacheEverything = false) ∧
    (resolvedCanonSafe u = true →
      (fetchOutbound env cookies u).cacheTtlByStatus
          = (if isEligibleForCache env cookies u then
              some ⟨env.PAGE_TTL, -1, env.MISSING_PAGE_TTL, -1⟩
            else none) ∧
        (fetchOutbound env cookies u).cacheEverything
          = isEligibleForCache env cookies u) := by
  have h1 : (fetchOutbound env cookies u).cacheTtlByStatus
      = (if isEligibleForCache env cookies (rewriteUrl env cookies u) then
          some ⟨env.PAGE_TTL, -1, env.MISSING_PAGE_TTL, -1⟩
        else none) := rfl
  have h2 : (fetchOutbound env cookies u).cacheEverything
      = isEligibleForCache env cookies (rewriteUrl env cookies u) := rfl
  constructor
  · intro hin
    have hr : rewriteUrl env cookies u = u := by
      unfold rewriteUrl
      rw [if_neg (by simp [hin])]
    rw [h1, h2, hr, hin]
    exact ⟨by simp, rfl⟩
  · intro hs
    rw [h1, h2, isEligible_rewriteUrl_safe env cookies u hs]
    exact ⟨rfl, rfl⟩

theorem c7_amended_cache_directive_witness :
    (fetchOutbound ⟨[], ["Foo"], "prefs", [], 3600, 300⟩ []
        ⟨"/index.php", [("title", "Foo:Bar")]⟩).cacheTtlByStatus
        = some ⟨3600, -1, 300, -1⟩ ∧
      (fetchOutbound ⟨[], ["Foo"], "prefs", [], 3600, 300⟩ []
        ⟨"/index.php", [("title", "Foo:Bar")]⟩).cacheEverything = true :=
  ⟨Eq.trans ((c7_amended_cache_directive ⟨[], ["Foo"], "prefs", [], 3600, 300⟩ []
      ⟨"/index.php", [("title", "Foo:Bar")]⟩).2 (by decide)).1 (by decide),
    Eq.trans ((c7_amended_cache_directive ⟨[], ["Foo"], "prefs", [], 3600, 300⟩ []
      ⟨"/index.php", [("title", "Foo:Bar")]⟩).2 (by decide)).2 (by decide)⟩

/-- Claim C8: article resolution is total — every URL yields some article
or `none`, never an exception — and the three specified title shapes
resolve as stated: `"Foo:Bar"`, `"Foo:"` (empty title part), `"Foo"`. -/
theorem c8_resolver_total_and_examples :
    (∀ u : Url, targetArticle u = none ∨ ∃ a, targetArticle u = some a) ∧
      targetArticle ⟨"/index.php", [("title", "Foo:Bar")]⟩ = some ⟨"Foo", "Bar"⟩ ∧
      targetArticle ⟨"/index.php", [("title", "Foo:")]⟩ = none ∧
      targetArticle ⟨"/index.php", [("title", "Foo")]⟩ = some ⟨"", "Foo"⟩ := by
  refine ⟨?_, by decide, by decide, by decide⟩
  intro u
  rcases h : targetArticle u with _ | a
  · exact Or.inl rfl
  · exact Or.inr ⟨a, rfl⟩

/-- Claim C9: `getClientPrefs` returns `[]` when the preference cookie is
absent or empty; otherwise it splits the value on `','`, trims each token,
and, for each configured marker in configured order, appends at most one
entry whose className is the first trimmed token starting with that
marker; the spec's concrete example evaluates accordingly. -/
theorem c9_getClientPrefs_spec :
    (∀ env : Env, ∀ cookies : Cookies,
      cookieGet cookies env.CLIENT_PREFS_COOKIE_NAME = none →
      getClientPrefs env cookies = []) ∧
    (∀ env : Env, ∀ cookies : Cookies,
      cookieGet cookies env.CLIENT_PREFS_COOKIE_NAME = some "" →
      getClientPrefs env cookies = []) ∧
    (∀ env : Env, ∀ cookies : Cookies, ∀ v : String,
      cookieGet cookies env.CLIENT_PREFS_COOKIE_NAME = some v → v ≠ "" →
      getClientPrefs env cookies
        = env.CLIENT_PREFS_CLASS_PREFIXES.filterMap
            (fun p => (List.find? (fun c => jsStartsWith c p)
                ((jsSplit ',' v).map jsTrim)).map (fun c => (⟨c, p⟩ : ClientPref)))) ∧
    getClientPrefs ⟨[], [], "prefs", ["mf-tabs-", "mf-theme-"], 3600, 300⟩
        [("prefs", "mf-tabs-enabled, foo-bar ,mf-theme-dark")]
      = [⟨"mf-tabs-enabled", "mf-tabs-"⟩, ⟨"mf-theme-dark", "mf-theme-"⟩] := by
  refine ⟨?_, ?_, ?_, by decide⟩
  · intro env cookies h
    unfold getClientPrefs
    simp only [h]
  · intro env cookies h
    unfold getClientPrefs
    simp [h]
  · intro env cookies v h hv
    unfold getClientPrefs
    simp only [h]
    rw [if_neg hv, collectPrefs_eq_filterMap]
    rfl

theorem c9_getClientPrefs_spec_witness :
    getClientPrefs ⟨[], [], "prefs", ["a-"], 3600, 300⟩ [("prefs", "a-x")]
      = (["a-"] : List String).filterMap
          (fun p => (List.find? (fun c => jsStartsWith c p)
              ((jsSplit ',' "a-x").map jsTrim)).map (fun c => (⟨c, p⟩ : ClientPref))) :=
  c9_getClientPrefs_spec.2.2.1 ⟨[], [], "prefs", ["a-"], 3600, 300⟩
    [("prefs", "a-x")] "a-x" (by decide) (by decide)

/-- Claim C10: a private cookie bound to the empty string is JS-falsy, so
it does not trip the private-signal check: when every name in
`PRIVATE_COOKIE_NAMES` is absent or bound to `""`, the check passes and
`isEligibleForCache` reduces to the article, query-key and namespace
checks alone. -/
theorem c10_empty_private_cookie_passes (env : Env) (cookies : Cookies)
    (h : ∀ n ∈ env.PRIVATE_COOKIE_NAMES,
      cookieGet cookies n = none ∨ cookieGet cookies n = some "") :
    hasPrivateCookie env cookies = false ∧
      ∀ u, isEligibleForCache env cookies u
        = (match targetArticle u with
           | none => false
           | some a =>
             if hasDisqualifyingKey u then false
             else env.CACHED_NAMESPACES.contains a.ns) := by
  have hp : hasPrivateCookie env cookies = false := by
    rw [hasPrivateCookie_eq_false_iff]
    intro n hn
    rw [cookieTruthy_eq_false_iff]
    intro v hv
    rcases h n hn with h2 | h2
    · rw [hv] at h2
      exact absurd h2 (by simp)
    · rw [hv] at h2
      injection h2 with h3
  refine ⟨hp, ?_⟩
  intro u
  unfold isEligibleForCache
  rw [if_neg (by simp [hp])]

theorem c10_empty_private_cookie_passes_witness :
    hasPrivateCookie ⟨["session"], ["Foo"], "prefs", [], 3600, 300⟩
        [("session", "")] = false ∧
      isEligibleForCache ⟨["session"], ["Foo"], "prefs", [], 3600, 300⟩
        [("session", "")] ⟨"/index.php", [("title", "Foo:Bar")]⟩ = true :=
  ⟨(c10_empty_private_cookie_passes _ _ (by decide)).1,
    Eq.trans
      ((c10_empty_private_cookie_passes _ _ (by decide)).2
        ⟨"/index.php", [("title", "Foo:Bar")]⟩)
      (by decide)⟩

end CacheWorker
